import Mathlib

/-!
Verification of the pulsar phase-computation notebook workflow: phase wrapping,
event-table augmentation, `check_time`, and HDU index-table patching.

Phase values and MJD timestamps are modelled as exact rationals (`ℚ`); tabular
metadata blocks and column collections are modelled as association lists with
Python-dict update semantics.
-/

namespace GammapyRecipes

/-- Association-list lookup with Python-dict semantics: return the value of the
first binding of the key, if any. -/
def getEntry {α : Type} (k : String) : List (String × α) → Option α
  | [] => none
  | (k0, v0) :: rest => if k0 = k then some v0 else getEntry k rest

/-- Association-list update with Python-dict semantics: replace the binding in
place if the key is present, otherwise append a new binding at the end. -/
def setEntry {α : Type} (k : String) (v : α) : List (String × α) → List (String × α)
  | [] => [(k, v)]
  | (k0, v0) :: rest => if k0 = k then (k, v) :: rest else (k0, v0) :: setEntry k v rest

/-- An astropy-style event table: named columns of numeric data plus a free-form
key-value metadata block (the FITS header). -/
structure EventTable where
  cols : List (String × List ℚ)
  meta : List (String × String)
deriving DecidableEq

/-- Column assignment `table[name] = vals`: adds the column, or replaces it if a
column of that name already exists (astropy `Table.__setitem__` semantics). -/
def EventTable.setCol (t : EventTable) (name : String) (vals : List ℚ) : EventTable :=
  { t with cols := setEntry name vals t.cols }

/-- Whether the table has a column of the given name. -/
def EventTable.hasCol (t : EventTable) (name : String) : Bool :=
  (getEntry name t.cols).isSome

/-- Metadata assignment `table.meta[key] = value` (Python dict update). -/
def EventTable.setMeta (t : EventTable) (key value : String) : EventTable :=
  { t with meta := setEntry key value t.meta }

/-- Metadata lookup `table.meta[key]`. -/
def EventTable.getMeta (t : EventTable) (key : String) : Option String :=
  getEntry key t.meta

/-- A `gammapy.data.EventList`: a wrapper around its event table. -/
structure EventList where
  table : EventTable
deriving DecidableEq

/-- A `gammapy.data.Observation`: identifier, start/stop times (as TT-scale MJD
values), and the event list it owns. -/
structure Observation where
  obs_id : Nat
  tstart : ℚ
  tstop : ℚ
  events : EventList
deriving DecidableEq

/-- A PINT timing model, reduced to the fields the notebook reads: the validity
window `START`/`FINISH` (TT-scale MJD values). -/
structure TimingModel where
  START : ℚ
  FINISH : ℚ
deriving DecidableEq

/-- Embeds the notebook's `check_time(observation, timing_model)`. The body reads
the module-level variable `model` (passed here explicitly as `model`), not the
`timing_model` parameter. Returns whether the warning is logged; the embedded
function is total, matching the source, which only compares numbers and logs. -/
def check_time (model : TimingModel) (observation : Observation)
    (timing_model : TimingModel) : Bool :=
  let model_time : ℚ × ℚ := (model.START, model.FINISH)
  decide (model_time.1 > observation.tstart ∨ model_time.2 < observation.tstop)

/-- The elementwise body of the wrap step
`phases = np.where(phases < 0.0, phases + 1.0, phases)`. -/
def wrap1 (x : ℚ) : ℚ :=
  if x < 0 then x + 1 else x

/-- Embeds the wrap step applied to the whole phase array: `np.where` maps the
elementwise correction over the array, preserving length and order. -/
def phases_wrap (phases : List ℚ) : List ℚ :=
  phases.map wrap1

/-- Embeds the table-augmentation cells of the notebook:
`table = observation.events.table`, `table["PHASE"] = phases`,
`table.meta["PH_LOG"] = phase_log`, `new_event_list = EventList(table)`,
`new_obs = observation.copy(in_memory=True, events=new_event_list)`.
Python binds `table` to the very table object inside `observation.events`
(no copy is taken), so the in-place column and metadata assignments mutate the
original observation's table; `new_obs` is then built around that same mutated
table. The result pair is (post-state of the original observation, `new_obs`). -/
def addPhaseAndMeta (observation : Observation) (phases : List ℚ)
    (phase_log : String) : Observation × Observation :=
  let table := observation.events.table
  let table := table.setCol "PHASE" phases
  let table := table.setMeta "PH_LOG" phase_log
  let new_event_list : EventList := { table := table }
  let mutated : Observation := { observation with events := { table := table } }
  let new_obs : Observation := { mutated with events := new_event_list }
  (mutated, new_obs)

/-- One row of the HDU index table, with the columns of the DL3 index format. -/
structure HduRow where
  obs_id : Nat
  hdu_type : String
  hdu_class : String
  file_dir : String
  file_name : String
  hdu_name : String
deriving DecidableEq

/-- The body of the patch loop for a single row `entry`: if the row matches
(`entry["HDU_NAME"] == "EVENTS" and entry["OBS_ID"] == target`) its
`FILE_DIR`/`FILE_NAME` fields are assigned, otherwise it is left alone. -/
def patchRow (target : Nat) (dir fname : String) (entry : HduRow) : HduRow :=
  if entry.hdu_name = "EVENTS" ∧ entry.obs_id = target then
    { entry with file_dir := dir, file_name := fname }
  else entry

/-- Embeds the patch loop `for entry in new_hdu: ...`: every row is visited once
and rewritten by `patchRow`, in order. -/
def patchHdu (target : Nat) (dir fname : String) (new_hdu : List HduRow) : List HduRow :=
  new_hdu.map (patchRow target dir fname)

/-- A `gammapy.data.DataStore`, reduced to what the notebook reads: the base
directory and the HDU index table. -/
structure DataStore where
  base_dir : String
  hdu_table : List HduRow
deriving DecidableEq

/-- Embeds the persistence cells of the notebook:
`new_hdu = data_store.hdu_table.copy()` (a genuine copy, so later mutation of
`new_hdu` does not alias the store's table), the patch loop over `new_hdu`, and
`new_hdu.write(datastore_dir + "hdu-index-pulsar.fits.gz", ...)`.
Returns (post-state of the data store, (the patched copy, the write path)). -/
def saveIndexSteps (data_store : DataStore) (target : Nat)
    (output_directory filename : String) : DataStore × (List HduRow × String) :=
  let datastore_dir := data_store.base_dir ++ "/"
  let new_hdu := data_store.hdu_table
  let new_hdu := patchHdu target ("./" ++ output_directory) filename new_hdu
  (data_store, (new_hdu, datastore_dir ++ "hdu-index-pulsar.fits.gz"))

/-- Concrete example table used in witnesses and counterexamples. -/
def exTable : EventTable :=
  ⟨[("TIME", [0, 1, 2])], [("ORIGIN", "MAGIC")]⟩

/-- Concrete example observation used in witnesses and counterexamples. -/
def exObs : Observation :=
  ⟨5029747, 10, 20, ⟨exTable⟩⟩

theorem getEntry_setEntry_self {α : Type} (k : String) (v : α)
    (l : List (String × α)) : getEntry k (setEntry k v l) = some v := by
  induction l with
  | nil => simp [setEntry, getEntry]
  | cons hd tl ih =>
    obtain ⟨k0, v0⟩ := hd
    by_cases h : k0 = k
    · simp [setEntry, getEntry, h]
    · simp [setEntry, getEntry, h, ih]

theorem getEntry_setEntry_ne {α : Type} {k k' : String} (h : k ≠ k') (v : α)
    (l : List (String × α)) : getEntry k (setEntry k' v l) = getEntry k l := by
  induction l with
  | nil => simp [setEntry, getEntry, Ne.symm h]
  | cons hd tl ih =>
    obtain ⟨k0, v0⟩ := hd
    by_cases h0 : k0 = k'
    · subst h0
      simp [setEntry, getEntry, Ne.symm h]
    · simp [setEntry, getEntry, h0, ih]

/-- Claim C4: `check_time` logs a warning if and only if the observation's start
time is earlier than the validity-window start or its stop time is later than
the validity-window end. The embedded function is total (it never raises), and
its Boolean result is consumed by nothing, so the computation proceeds
regardless of the warning. -/
theorem check_time_warns_iff (model : TimingModel) (observation : Observation)
    (timing_model : TimingModel) :
    check_time model observation timing_model = true ↔
      (observation.tstart < model.START ∨ model.FINISH < observation.tstop) := by
  simp [check_time]

/-- Claim C9: `check_time` ignores its `timing_model` parameter; it reads the
validity window from the module-level `model` variable, so any two timing
models passed as the argument yield the same result. -/
theorem check_time_ignores_timing_model (model : TimingModel)
    (observation : Observation) (tm1 tm2 : TimingModel) :
    check_time model observation tm1 = check_time model observation tm2 := rfl

/-- Claim C10: the window comparison is strict, so an observation whose start
and stop times exactly equal the validity-window endpoints logs no warning. -/
theorem check_time_boundary_no_warning (model : TimingModel)
    (observation : Observation) (timing_model : TimingModel)
    (h1 : observation.tstart = model.START)
    (h2 : observation.tstop = model.FINISH) :
    check_time model observation timing_model = false := by
  simp [check_time, h1, h2]

/-- Witness for C10 at a concrete observation lying exactly on the window. -/
theorem check_time_boundary_no_warning_witness :
    exObs.tstart = (⟨10, 20⟩ : TimingModel).START ∧
    exObs.tstop = (⟨10, 20⟩ : TimingModel).FINISH ∧
    check_time ⟨10, 20⟩ exObs ⟨0, 100⟩ = false :=
  ⟨rfl, rfl, check_time_boundary_no_warning ⟨10, 20⟩ exObs ⟨0, 100⟩ rfl rfl⟩

/-- Claim C5: on the phase sequence [-0.3, 0.1, 0.6] the wrap step produces
exactly [0.7, 0.1, 0.6]. -/
theorem phases_wrap_example :
    phases_wrap [-(3 : ℚ)/10, 1/10, 3/5] = [7/10, 1/10, 3/5] := by
  norm_num [phases_wrap, wrap1]

/-- Claim C6: only a single-cycle correction is applied, so an input phase
strictly below -1.0 is mapped to x + 1.0, which is still negative and hence
not in [0, 1). -/
theorem wrap1_single_cycle (x : ℚ) (h : x < -1) :
    wrap1 x = x + 1 ∧ wrap1 x < 0 ∧ ¬(0 ≤ wrap1 x ∧ wrap1 x < 1) := by
  have h1 : wrap1 x = x + 1 := if_pos (by linarith)
  refine ⟨h1, ?_, ?_⟩
  · rw [h1]; linarith
  · rw [h1]; rintro ⟨h2, _⟩; linarith

/-- Witness for C6 at the concrete input -2. -/
theorem wrap1_single_cycle_witness :
    (-2 : ℚ) < -1 ∧
    (wrap1 (-2) = -2 + 1 ∧ wrap1 (-2) < 0 ∧ ¬(0 ≤ wrap1 (-2) ∧ wrap1 (-2) < 1)) :=
  ⟨by norm_num, wrap1_single_cycle (-2) (by norm_num)⟩

/-- Claim C1: the wrap step produces exactly one output phase per input phase,
in order; for every input phase in [-0.5, 0.5] the output is x + 1.0 when
x < 0 and x unchanged otherwise, and every output lies in [0, 1). -/
theorem phases_wrap_spec (phases : List ℚ)
    (h : ∀ x ∈ phases, -(1 : ℚ)/2 ≤ x ∧ x ≤ 1/2) :
    (phases_wrap phases).length = phases.length ∧
    (∀ i (hi : i < phases.length),
      (phases_wrap phases)[i]? =
        some (if phases.get ⟨i, hi⟩ < 0 then phases.get ⟨i, hi⟩ + 1
              else phases.get ⟨i, hi⟩)) ∧
    (∀ y ∈ phases_wrap phases, 0 ≤ y ∧ y < 1) := by
  refine ⟨List.length_map _ _, ?_, ?_⟩
  · intro i hi
    simp [phases_wrap, wrap1, List.getElem?_map, List.getElem?_eq_getElem hi,
      List.get_eq_getElem]
  · intro y hy
    obtain ⟨x, hx, rfl⟩ := List.mem_map.mp hy
    obtain ⟨h1, h2⟩ := h x hx
    unfold wrap1
    split <;> constructor <;> linarith

/-- Concrete phase list for the C1 witness. -/
def exPhases : List ℚ := [-(3 : ℚ)/10, 1/10, 1/2]

/-- Witness for C1 on a concrete in-range phase list. -/
theorem phases_wrap_spec_witness :
    (∀ x ∈ exPhases, -(1 : ℚ)/2 ≤ x ∧ x ≤ 1/2) ∧
    ((phases_wrap exPhases).length = exPhases.length ∧
     (∀ i (hi : i < exPhases.length),
       (phases_wrap exPhases)[i]? =
         some (if exPhases.get ⟨i, hi⟩ < 0 then exPhases.get ⟨i, hi⟩ + 1
               else exPhases.get ⟨i, hi⟩)) ∧
     (∀ y ∈ phases_wrap exPhases, 0 ≤ y ∧ y < 1)) :=
  ⟨by norm_num [exPhases], phases_wrap_spec exPhases (by norm_num [exPhases])⟩

/-- Claim C3 fails on the code: the notebook binds `table` to the table object
inside the original observation's event list, so adding the PHASE column and
the PH_LOG metadata key mutates the original observation in place. At a
concrete observation whose table starts without either, the post-state of the
input observation has both. -/
theorem addPhaseAndMeta_mutates_original :
    exObs.events.table.hasCol "PHASE" = false ∧
    exObs.events.table.getMeta "PH_LOG" = none ∧
    (addPhaseAndMeta exObs [7/10, 1/10, 3/5] "log").1.events.table.hasCol "PHASE" = true ∧
    (addPhaseAndMeta exObs [7/10, 1/10, 3/5] "log").1.events.table.getMeta "PH_LOG"
      = some "log" := by
  decide

/-- Claim C3 (amended): the augmentation mutates the original observation's
event table in place — after the steps the input observation's table carries
the new PHASE column and the PH_LOG metadata key — and the newly produced
observation shares that same mutated table rather than being its sole holder. -/
theorem addPhaseAndMeta_shares_mutated_table (observation : Observation)
    (phases : List ℚ) (phase_log : String) :
    (addPhaseAndMeta observation phases phase_log).1.events.table
      = (addPhaseAndMeta observation phases phase_log).2.events.table ∧
    (addPhaseAndMeta observation phases phase_log).1.events.table.hasCol "PHASE" = true ∧
    (addPhaseAndMeta observation phases phase_log).1.events.table.getMeta "PH_LOG"
      = some phase_log := by
  refine ⟨rfl, ?_, ?_⟩
  · simp [addPhaseAndMeta, EventTable.hasCol, EventTable.setCol, EventTable.setMeta,
      getEntry_setEntry_self]
  · simp [addPhaseAndMeta, EventTable.getMeta, EventTable.setCol, EventTable.setMeta,
      getEntry_setEntry_self]

/-- Claim C7: metadata augmentation obeys map-update semantics with no
uniqueness enforcement: writing provenance strings under two distinct keys
preserves both entries, while writing twice under the same key silently
overwrites the earlier value with the later one. -/
theorem meta_update_semantics (t : EventTable) (k k1 k2 v1 v2 w1 w2 : String)
    (hne : k1 ≠ k2) :
    (((t.setMeta k1 v1).setMeta k2 v2).getMeta k1 = some v1 ∧
     ((t.setMeta k1 v1).setMeta k2 v2).getMeta k2 = some v2) ∧
    ((t.setMeta k w1).setMeta k w2).getMeta k = some w2 := by
  refine ⟨⟨?_, ?_⟩, ?_⟩
  · simp [EventTable.getMeta, EventTable.setMeta, getEntry_setEntry_ne hne,
      getEntry_setEntry_self]
  · simp [EventTable.getMeta, EventTable.setMeta, getEntry_setEntry_self]
  · simp [EventTable.getMeta, EventTable.setMeta, getEntry_setEntry_self]

/-- Witness for C7 at concrete keys and values. -/
theorem meta_update_semantics_witness :
    ("PH_LOG" : String) ≠ "PH_LOG_B" ∧
    ((((exTable.setMeta "PH_LOG" "a").setMeta "PH_LOG_B" "b").getMeta "PH_LOG" = some "a" ∧
      ((exTable.setMeta "PH_LOG" "a").setMeta "PH_LOG_B" "b").getMeta "PH_LOG_B" = some "b") ∧
     ((exTable.setMeta "DATE" "c").setMeta "DATE" "d").getMeta "DATE" = some "d") :=
  ⟨by decide, meta_update_semantics exTable "DATE" "PH_LOG" "PH_LOG_B" "a" "b" "c" "d" (by decide)⟩

/-- Claim C2: applied to an index table holding exactly one row whose
content-kind is EVENTS and whose observation identifier equals the target, the
patch loop changes the directory and filename fields of exactly that row and
leaves every other row — and every other column of the patched row — unchanged
(the row update touches only `file_dir` and `file_name`). -/
theorem patchHdu_changes_exactly_matching_row (t : List HduRow) (target : Nat)
    (dir fname : String) (i : Nat) (hi : i < t.length)
    (hname : (t.get ⟨i, hi⟩).hdu_name = "EVENTS")
    (hobs : (t.get ⟨i, hi⟩).obs_id = target)
    (huniq : ∀ j (hj : j < t.length),
      (t.get ⟨j, hj⟩).hdu_name = "EVENTS" → (t.get ⟨j, hj⟩).obs_id = target → j = i) :
    (patchHdu target dir fname t).length = t.length ∧
    (patchHdu target dir fname t)[i]? =
      some { t.get ⟨i, hi⟩ with file_dir := dir, file_name := fname } ∧
    (∀ j, j ≠ i → (patchHdu target dir fname t)[j]? = t[j]?) := by
  refine ⟨List.length_map _ _, ?_, ?_⟩
  · have hti : t[i]? = some (t.get ⟨i, hi⟩) := by
      simp [List.getElem?_eq_getElem hi, List.get_eq_getElem]
    have hrow : patchRow target dir fname (t.get ⟨i, hi⟩)
        = { t.get ⟨i, hi⟩ with file_dir := dir, file_name := fname } :=
      if_pos ⟨hname, hobs⟩
    simp only [patchHdu, List.getElem?_map, hti, Option.map_some', hrow]
  · intro j hj
    rcases Nat.lt_or_ge j t.length with hlt | hge
    · have htj : t[j]? = some (t.get ⟨j, hlt⟩) := by
        simp [List.getElem?_eq_getElem hlt, List.get_eq_getElem]
      have hno : ¬((t.get ⟨j, hlt⟩).hdu_name = "EVENTS" ∧
          (t.get ⟨j, hlt⟩).obs_id = target) := by
        rintro ⟨ha, hb⟩
        exact hj (huniq j hlt ha hb)
      have hrow : patchRow target dir fname (t.get ⟨j, hlt⟩) = t.get ⟨j, hlt⟩ :=
        if_neg hno
      simp only [patchHdu, List.getElem?_map, htj, Option.map_some', hrow]
    · have h1 : t[j]? = none := List.getElem?_eq_none hge
      have h2 : (patchHdu target dir fname t)[j]? = none := by
        apply List.getElem?_eq_none
        simpa [patchHdu] using hge
      rw [h1, h2]

/-- Concrete matching row for the C2 witness. -/
def exRow0 : HduRow :=
  ⟨5029747, "events", "events", "./", "20210314_05029747_DL3_CrabNebula-W0.40+035.fits", "EVENTS"⟩

/-- Concrete non-matching row for the C2 witness. -/
def exRow1 : HduRow :=
  ⟨5029747, "aeff", "aeff_2d", "./", "20210314_05029747_DL3_CrabNebula-W0.40+035.fits", "AEFF"⟩

/-- Concrete two-row index table for the C2 witness. -/
def exHdu : List HduRow := [exRow0, exRow1]

/-- Witness for C2 on a concrete two-row index table with a unique match. -/
theorem patchHdu_changes_exactly_matching_row_witness :
    (exRow0.hdu_name = "EVENTS" ∧ exRow0.obs_id = 5029747 ∧
     (∀ j (hj : j < exHdu.length),
       (exHdu.get ⟨j, hj⟩).hdu_name = "EVENTS" →
       (exHdu.get ⟨j, hj⟩).obs_id = 5029747 → j = 0)) ∧
    ((patchHdu 5029747 "./pulsar_events_file/" "dl3_pulsar_5029747.fits.gz" exHdu).length
        = exHdu.length ∧
     (patchHdu 5029747 "./pulsar_events_file/" "dl3_pulsar_5029747.fits.gz" exHdu)[0]? =
       some { exRow0 with file_dir := "./pulsar_events_file/",
                          file_name := "dl3_pulsar_5029747.fits.gz" } ∧
     ∀ j, j ≠ 0 →
       (patchHdu 5029747 "./pulsar_events_file/" "dl3_pulsar_5029747.fits.gz" exHdu)[j]?
         = exHdu[j]?) :=
  ⟨⟨by decide, by decide, by decide⟩,
    patchHdu_changes_exactly_matching_row exHdu 5029747 "./pulsar_events_file/"
      "dl3_pulsar_5029747.fits.gz" 0 (by decide) (by decide) (by decide) (by decide)⟩

/-- Claim C8: the index patcher operates on a copy of the data store's index
table: after patching the copy and choosing the distinct persistence path
`hdu-index-pulsar.fits.gz`, the data store's own index table is unchanged,
row for row. -/
theorem saveIndexSteps_preserves_store (data_store : DataStore) (target : Nat)
    (output_directory filename : String) :
    (saveIndexSteps data_store target output_directory filename).1 = data_store ∧
    (∀ j : Nat, ((saveIndexSteps data_store target output_directory filename).1.hdu_table)[j]?
        = (data_store.hdu_table)[j]?) ∧
    (saveIndexSteps data_store target output_directory filename).2.2 =
      data_store.base_dir ++ "/" ++ "hdu-index-pulsar.fits.gz" :=
  ⟨rfl, fun _ => rfl, rfl⟩

end GammapyRecipes
